import Mathlib

/-!
Verification of the chat streaming-ingestion and upload-manager core.

The definitions below are shallow embeddings of:
  - `startStreaming` and its read loop (services/streamingService.ts),
  - `reconnectWithBackoff` (services/streamingService.ts),
  - `mockStreaming` (services/streamingService.ts),
  - `startStream` of the useStreaming hook,
  - `uploadFiles`, `updateFile`, `retryUpload`, `cancelUpload`, `deleteFile`
    of the useFileUpload hook, together with `validateFile` and the upload
    constants (utils),
  - the mock transport `uploadFile` (services/mockApiService.ts).

Byte fragments are modelled at the decoded-text level (`List Char`): the
source decodes each fragment with a streaming text decoder, which holds back a
partially received multi-byte character, so the decoded text of a fragment
sequence concatenates to the decoding of the concatenated bytes.
JSON.parse is a platform primitive; the line parser is therefore
parameterised over an arbitrary parse function `J : List Char → Option α`.
-/

/- ================= Streaming ingestion: line splitting ================= -/

/-- JS `buffer.split(newline)` on the character list of the buffer: the
pieces between newline characters, including a (possibly empty) trailing
piece. The result always has `count newline + 1` entries. -/
def jsSplitNl : List Char → List (List Char)
  | [] => [[]]
  | c :: rest =>
    match jsSplitNl rest with
    | [] => [[]]
    | l :: ls => if c = '\n' then [] :: l :: ls else (c :: l) :: ls

theorem jsSplitNl_ne_nil (s : List Char) : jsSplitNl s ≠ [] := by
  induction s with
  | nil => simp [jsSplitNl]
  | cons c rest ih =>
    simp only [jsSplitNl]
    cases h : jsSplitNl rest with
    | nil => simp
    | cons l ls => by_cases hc : c = '\n' <;> simp [hc]

theorem jsSplitNl_no_nl {s : List Char} (h : '\n' ∉ s) : jsSplitNl s = [s] := by
  induction s with
  | nil => simp [jsSplitNl]
  | cons c rest ih =>
    have hc : c ≠ '\n' := fun he => h (he ▸ List.mem_cons_self c rest)
    have hrest : '\n' ∉ rest := fun hm => h (List.mem_cons_of_mem c hm)
    simp [jsSplitNl, ih hrest, hc]

theorem jsSplitNl_cons_nl (s : List Char) : jsSplitNl ('\n' :: s) = [] :: jsSplitNl s := by
  simp only [jsSplitNl]
  cases h : jsSplitNl s with
  | nil => exact absurd h (jsSplitNl_ne_nil s)
  | cons l ls => simp

theorem jsSplitNl_append_nl {p : List Char} (h : '\n' ∉ p) (s : List Char) :
    jsSplitNl (p ++ '\n' :: s) = p :: jsSplitNl s := by
  induction p with
  | nil => simpa using jsSplitNl_cons_nl s
  | cons c p' ih =>
    have hc : c ≠ '\n' := fun he => h (he ▸ List.mem_cons_self c p')
    have hp' : '\n' ∉ p' := fun hm => h (List.mem_cons_of_mem c hm)
    have ih' := ih hp'
    simp only [List.cons_append, jsSplitNl, List.append_eq]
    rw [ih']
    simp [hc]

theorem getLastD_irrel {α : Type} (l : List α) (h : l ≠ []) (d₁ d₂ : α) :
    l.getLastD d₁ = l.getLastD d₂ := by
  cases l with
  | nil => exact absurd rfl h
  | cons x xs => rw [List.getLastD_cons, List.getLastD_cons]

theorem jsSplitNl_getLastD_no_nl (s : List Char) : '\n' ∉ (jsSplitNl s).getLastD [] := by
  induction s with
  | nil => simp [jsSplitNl]
  | cons c rest ih =>
    simp only [jsSplitNl]
    cases h : jsSplitNl rest with
    | nil => exact absurd h (jsSplitNl_ne_nil rest)
    | cons l ls =>
      rw [h] at ih
      by_cases hc : c = '\n'
      · simpa [hc, List.getLastD_cons] using ih
      · simp only [if_neg hc]
        cases ls with
        | nil =>
          simp only [List.getLastD_cons, List.getLastD] at ih ⊢
          intro hm
          rcases List.mem_cons.mp hm with he | hm2
          · exact hc he.symm
          · exact ih hm2
        | cons y ys =>
          simpa [List.getLastD_cons] using ih

/- ============ Streaming ingestion: the buffered read loop ============ -/

/-- Character-level reference scanner for the read loop: a newline flushes the
pending buffer as a complete line, any other character is appended to the
pending buffer. State is (complete lines so far, pending partial line). -/
def feedChar (s : List (List Char) × List Char) (c : Char) :
    List (List Char) × List Char :=
  if c = '\n' then (s.1 ++ [s.2], []) else (s.1, s.2 ++ [c])

/-- Feeding a whole character sequence to the reference scanner. -/
def feedChars (s : List (List Char) × List Char) (cs : List Char) :
    List (List Char) × List Char :=
  cs.foldl feedChar s

/-- The read loop of startStreaming, one iteration per transport fragment:
append the decoded fragment to the buffer, split on newlines, keep the last
(possibly incomplete) piece as the new buffer, and emit the other pieces as
complete lines. -/
def runFragments (s : List (List Char) × List Char) :
    List (List Char) → List (List Char) × List Char
  | [] => s
  | f :: fs =>
    runFragments
      ((s.1 ++ (jsSplitNl (s.2 ++ f)).dropLast, (jsSplitNl (s.2 ++ f)).getLastD []))
      fs

theorem feedChars_step (f : List Char) :
    ∀ (done : List (List Char)) (buf : List Char), '\n' ∉ buf →
      feedChars (done, buf) f =
        (done ++ (jsSplitNl (buf ++ f)).dropLast, (jsSplitNl (buf ++ f)).getLastD []) := by
  induction f with
  | nil =>
    intro done buf hbuf
    simp [feedChars, jsSplitNl_no_nl hbuf, List.getLastD]
  | cons c f' ih =>
    intro done buf hbuf
    by_cases hc : c = '\n'
    · subst hc
      have h1 : feedChars (done, buf) ('\n' :: f') = feedChars (done ++ [buf], []) f' := by
        simp [feedChars, feedChar]
      rw [h1, ih (done ++ [buf]) [] (by simp)]
      rw [jsSplitNl_append_nl hbuf f']
      obtain ⟨x, xs, hx⟩ := List.exists_cons_of_ne_nil (jsSplitNl_ne_nil f')
      have h2 : (buf :: jsSplitNl f').dropLast = buf :: (jsSplitNl f').dropLast := by
        rw [hx]; simp [List.dropLast]
      have h3 : (buf :: jsSplitNl f').getLastD [] = (jsSplitNl f').getLastD [] := by
        rw [List.getLastD_cons]
        exact getLastD_irrel _ (jsSplitNl_ne_nil f') buf []
      rw [h2, h3]
      simp [List.append_assoc]
    · have h1 : feedChars (done, buf) (c :: f') = feedChars (done, buf ++ [c]) f' := by
        simp [feedChars, feedChar, hc]
      have hbc : '\n' ∉ buf ++ [c] := by
        intro hm
        rcases List.mem_append.mp hm with hm1 | hm2
        · exact hbuf hm1
        · simp at hm2
          exact hc hm2.symm
      rw [h1, ih done (buf ++ [c]) hbc]
      simp [List.append_assoc]

theorem runFragments_eq_feedChars :
    ∀ (frags : List (List Char)) (done : List (List Char)) (buf : List Char),
      '\n' ∉ buf →
      runFragments (done, buf) frags = feedChars (done, buf) frags.flatten := by
  intro frags
  induction frags with
  | nil => intro done buf _; simp [runFragments, feedChars]
  | cons f fs ih =>
    intro done buf hbuf
    have hstep := feedChars_step f done buf hbuf
    have hnew : '\n' ∉ (jsSplitNl (buf ++ f)).getLastD [] := jsSplitNl_getLastD_no_nl (buf ++ f)
    calc runFragments (done, buf) (f :: fs)
        = runFragments
            ((done ++ (jsSplitNl (buf ++ f)).dropLast, (jsSplitNl (buf ++ f)).getLastD []))
            fs := by simp [runFragments]
      _ = feedChars
            ((done ++ (jsSplitNl (buf ++ f)).dropLast, (jsSplitNl (buf ++ f)).getLastD []))
            fs.flatten := ih _ _ hnew
      _ = feedChars (feedChars (done, buf) f) fs.flatten := by rw [hstep]
      _ = feedChars (done, buf) (f :: fs).flatten := by
            simp [feedChars, List.foldl_append]

/- ============ Streaming ingestion: per-line processing ============ -/

/-- The test `line.trim()` is the empty string: the line consists only of
whitespace characters and is skipped by the loop. -/
def isBlankLine (l : List Char) : Bool := l.all (fun c => c.isWhitespace)

/-- Drop the leading run of whitespace characters, the greedy whitespace part
of the anchored event-tag pattern. -/
def dropLeadingWs : List Char → List Char
  | [] => []
  | c :: rest => if c.isWhitespace then dropLeadingWs rest else c :: rest

/-- `line.replace` over the anchored pattern that strips a leading data: tag
and the whitespace that follows it; a line without the tag is unchanged. -/
def stripDataTag (l : List Char) : List Char :=
  if l.take 5 = ['d', 'a', 't', 'a', ':'] then dropLeadingWs (l.drop 5) else l

/-- Chunks the loop delivers for one complete line: a whitespace-only line is
skipped; otherwise the tag is stripped and the remainder handed to the JSON
parser `J`; a line that fails to parse is logged and skipped. -/
def lineEvents {α : Type} (J : List Char → Option α) (l : List Char) : List α :=
  if isBlankLine l then []
  else
    match J (stripDataTag l) with
    | some chunk => [chunk]
    | none => []

/-- Chunks delivered for a list of complete lines, in order. -/
def chunksOfLines {α : Type} (J : List Char → Option α) (ls : List (List Char)) : List α :=
  (ls.map (lineEvents J)).flatten

/-- The complete (newline-terminated) lines of a whole character stream: every
piece of the newline split except the trailing partial line. -/
def completeLinesOf (s : List Char) : List (List Char) := (jsSplitNl s).dropLast

/-- The ordered chunk sequence startStreaming delivers to `onChunk` when the
transport yields the given decoded fragments. -/
def startStreamingChunks {α : Type} (J : List Char → Option α)
    (frags : List (List Char)) : List α :=
  chunksOfLines J (runFragments ([], []) frags).1

/-- How the transport read ends: a clean end of stream, an abort of the
request signal, or any other transport error. -/
inductive TransportEnd : Type
  | clean : TransportEnd
  | aborted : TransportEnd
  | failed : TransportEnd
deriving DecidableEq

/-- The externally observable callback activity of one streaming session. -/
structure StreamRun (α : Type) where
  chunks : List α
  completions : Nat
  errors : Nat
deriving DecidableEq

/-- The whole of startStreaming for one session: chunks for every complete
line of the fragments received, then `onComplete` on a clean end of stream,
nothing further on an abort (the AbortError branch only logs), and one
`onError` call on any other failure. -/
def startStreamingRun {α : Type} (J : List Char → Option α)
    (frags : List (List Char)) (ending : TransportEnd) : StreamRun α :=
  match ending with
  | .clean => ⟨startStreamingChunks J frags, 1, 0⟩
  | .aborted => ⟨startStreamingChunks J frags, 0, 0⟩
  | .failed => ⟨startStreamingChunks J frags, 0, 1⟩

theorem runFragments_fst (frags : List (List Char)) :
    (runFragments ([], []) frags).1 = completeLinesOf frags.flatten := by
  rw [runFragments_eq_feedChars frags [] [] (by simp)]
  rw [feedChars_step frags.flatten [] [] (by simp)]
  simp [completeLinesOf]

theorem startStreamingChunks_eq {α : Type} (J : List Char → Option α)
    (frags : List (List Char)) :
    startStreamingChunks J frags = chunksOfLines J (completeLinesOf frags.flatten) := by
  rw [startStreamingChunks, runFragments_fst]

/- ================= Claim C1 ================= -/

/-- Concatenated content of the emitted text chunks, for a content extractor
`tc` that returns the content field of a text-delta chunk and `none` on the
other variants. -/
def emittedTextOf {α : Type} (J : List Char → Option α) (tc : α → Option (List Char))
    (frags : List (List Char)) : List Char :=
  ((startStreamingChunks J frags).filterMap tc).flatten

/-- The decoded text payload one complete line contributes. -/
def linePayload {α : Type} (J : List Char → Option α) (tc : α → Option (List Char))
    (l : List Char) : List Char :=
  ((lineEvents J l).filterMap tc).flatten

theorem chunksOfLines_text {α : Type} (J : List Char → Option α)
    (tc : α → Option (List Char)) (ls : List (List Char)) :
    ((chunksOfLines J ls).filterMap tc).flatten = (ls.map (linePayload J tc)).flatten := by
  induction ls with
  | nil => simp [chunksOfLines]
  | cons l ls ih =>
    simp only [chunksOfLines, List.map_cons, List.flatten_cons, List.filterMap_append,
      List.flatten_append] at ih ⊢
    rw [ih]
    rfl

/-- C1: the read loop is split-anywhere invariant. Any two fragmentations of
the same decoded byte stream produce the same chunk sequence, and the
concatenated content of the emitted text-delta chunks equals the concatenated
payload of the complete lines of the whole input. -/
theorem startStreaming_split_anywhere {α : Type} (J : List Char → Option α)
    (tc : α → Option (List Char)) (frags frags2 : List (List Char))
    (h : frags2.flatten = frags.flatten) :
    startStreamingChunks J frags2 = startStreamingChunks J frags ∧
    emittedTextOf J tc frags = ((completeLinesOf frags.flatten).map (linePayload J tc)).flatten := by
  constructor
  · rw [startStreamingChunks_eq, startStreamingChunks_eq, h]
  · rw [emittedTextOf, startStreamingChunks_eq]
    exact chunksOfLines_text J tc (completeLinesOf frags.flatten)

/-- Witness for C1 at a concrete split: the stream a-newline delivered as two
fragments versus one fragment. -/
theorem startStreaming_split_anywhere_witness :
    ([['a'], ['\n']] : List (List Char)).flatten = ([['a', '\n']] : List (List Char)).flatten ∧
    (startStreamingChunks (fun l => some l) [['a'], ['\n']] =
        startStreamingChunks (fun l => some l) [['a', '\n']] ∧
      emittedTextOf (fun l => some l) (fun l => some l) [['a', '\n']] =
        ((completeLinesOf ([['a', '\n']] : List (List Char)).flatten).map
          (linePayload (fun l => some l) (fun l => some l))).flatten) :=
  ⟨by decide,
   startStreaming_split_anywhere (fun l => some l) (fun l => some l)
     [['a', '\n']] [['a'], ['\n']] (by decide)⟩

/- ================= Claim C7 ================= -/

/-- A list of complete lines delivered as one newline-terminated fragment
each. -/
def linesToFrags (ls : List (List Char)) : List (List Char) :=
  ls.map (fun l => l ++ ['\n'])

theorem completeLinesOf_lines (ls : List (List Char))
    (h : ∀ l ∈ ls, '\n' ∉ l) :
    completeLinesOf (linesToFrags ls).flatten = ls := by
  induction ls with
  | nil => simp [linesToFrags, completeLinesOf, jsSplitNl]
  | cons l ls ih =>
    have hl : '\n' ∉ l := h l (List.mem_cons_self l ls)
    have hls : ∀ x ∈ ls, '\n' ∉ x := fun x hx => h x (List.mem_cons_of_mem l hx)
    simp only [linesToFrags, List.map_cons, List.flatten_cons, List.append_assoc,
      List.singleton_append]
    rw [completeLinesOf, jsSplitNl_append_nl hl]
    have := ih hls
    rw [completeLinesOf] at this
    rw [List.dropLast_cons_of_ne_nil (jsSplitNl_ne_nil _)]
    simp only [linesToFrags] at this
    rw [this]

theorem lineEvents_parse_failure {α : Type} (J : List Char → Option α)
    (bad : List Char) (hbad : J (stripDataTag bad) = none) :
    lineEvents J bad = [] := by
  rw [lineEvents]
  by_cases hb : isBlankLine bad
  · simp [hb]
  · simp [hb, hbad]

/-- C7: a complete line that fails to parse after tag stripping is skipped
without aborting the session: the surrounding lines still produce their
chunks in order, the session still completes, and no error callback fires. -/
theorem parse_failure_skipped {α : Type} (J : List Char → Option α)
    (ls1 ls2 : List (List Char)) (bad : List Char)
    (hnl : ∀ l ∈ ls1 ++ bad :: ls2, '\n' ∉ l)
    (hbad : J (stripDataTag bad) = none) :
    startStreamingRun J (linesToFrags (ls1 ++ bad :: ls2)) TransportEnd.clean =
      ⟨chunksOfLines J ls1 ++ chunksOfLines J ls2, 1, 0⟩ := by
  rw [startStreamingRun]
  have h1 : startStreamingChunks J (linesToFrags (ls1 ++ bad :: ls2)) =
      chunksOfLines J (ls1 ++ bad :: ls2) := by
    rw [startStreamingChunks_eq, completeLinesOf_lines _ hnl]
  rw [h1]
  simp only [chunksOfLines, List.map_append, List.map_cons, List.flatten_append,
    List.flatten_cons, lineEvents_parse_failure J bad hbad]
  simp

/-- Witness for C7: a malformed middle line between two parseable lines. -/
theorem parse_failure_skipped_witness :
    ((∀ l ∈ ([['x']] ++ ['b'] :: [['x']] : List (List Char)), '\n' ∉ l) ∧
      (fun l => if l = ['x'] then some 7 else none) (stripDataTag ['b']) = none) ∧
    startStreamingRun (fun l => if l = ['x'] then some 7 else none)
        (linesToFrags ([['x']] ++ ['b'] :: [['x']])) TransportEnd.clean =
      ⟨chunksOfLines (fun l => if l = ['x'] then some 7 else none) [['x']] ++
        chunksOfLines (fun l => if l = ['x'] then some 7 else none) [['x']], 1, 0⟩ :=
  ⟨⟨by decide, by decide⟩,
   parse_failure_skipped (fun l => if l = ['x'] then some 7 else none)
     [['x']] [['x']] ['b'] (by decide) (by decide)⟩

/- ================= Mock streaming (mockStreaming) ================= -/

/-- The chunk variants mockStreaming emits. -/
inductive MockChunk : Type
  | streaming : String → MockChunk
  | toolStart : String → MockChunk
  | toolUsed : String → MockChunk
  | supervisorStreaming : String → MockChunk
deriving DecidableEq

/-- The word-by-word tail of mockStreaming: `content` accumulates each word
plus a trailing space and a supervisor streaming chunk is emitted after every
word. -/
def wordChunks : List String → String → List MockChunk
  | [], _ => []
  | w :: ws, content =>
    MockChunk.supervisorStreaming (content ++ w ++ " ") :: wordChunks ws (content ++ w ++ " ")

/-- The canned response text of mockStreaming for a given user message. -/
def mockResponse (message : String) : String :=
  "This is a mock response to: \x22" ++ message ++
    "\x22. In a real application, this would be the AI\x27s actual response based on your input."

/-- The full ordered chunk sequence of one uninterrupted mockStreaming run:
two progress chunks, a tool start and its result, then the response streamed
word by word with cumulative content. -/
def mockStreamingChunks (message : String) : List MockChunk :=
  [MockChunk.streaming "Analyzing your question",
   MockChunk.streaming "Searching for relevant information",
   MockChunk.toolStart "tool_123",
   MockChunk.toolUsed "tool_123"] ++
    wordChunks ((mockResponse message).splitOn " ") ""

/-- The callback activity of one mockStreaming run. `abortStep = some k`
means the signal is triggered while the k-th inter-chunk delay is pending:
that delay rejects with an AbortError, the catch recognizes the name and
returns, so chunks after the k-th are not delivered, onComplete never runs
and onError is not called. `abortStep = none` is an uninterrupted run. -/
def mockStreamingRun (message : String) (abortStep : Option Nat) : StreamRun MockChunk :=
  match abortStep with
  | none => ⟨mockStreamingChunks message, 1, 0⟩
  | some k => ⟨(mockStreamingChunks message).take k, 0, 0⟩

/- ================= Claim C8 ================= -/

/-- C8: a session ended by an abort of its cancellation token surfaces no
error and no completion: the AbortError branch of startStreaming only logs,
and the same holds for mockStreaming; startStreaming itself contains no retry
loop, so an aborted session is never re-attempted. -/
theorem abort_not_an_error {α : Type} (J : List Char → Option α)
    (frags : List (List Char)) (m : String) (k : Nat) :
    (startStreamingRun J frags TransportEnd.aborted).errors = 0 ∧
    (startStreamingRun J frags TransportEnd.aborted).completions = 0 ∧
    (mockStreamingRun m (some k)).errors = 0 ∧
    (mockStreamingRun m (some k)).completions = 0 := by
  simp [startStreamingRun, mockStreamingRun]

/- ================= reconnectWithBackoff ================= -/

/-- Whether the promise returned by startStreaming rejects. Its whole body is
inside a try/catch whose catch either returns (AbortError) or calls onError
and then falls off the end, so the promise always resolves: the value is
false for every transport behaviour. -/
def startStreamingThrows (frags : List (List Char)) (ending : TransportEnd) : Bool :=
  match frags, ending with
  | _, _ => false

/-- Pointwise sum of the callback activity of consecutive sessions. -/
def addRun {α : Type} (a b : StreamRun α) : StreamRun α :=
  ⟨a.chunks ++ b.chunks, a.completions + b.completions, a.errors + b.errors⟩

/-- The observable outcome of one reconnectWithBackoff call. -/
structure ReconnectResult (α : Type) where
  attemptsMade : Nat
  totalDelay : Nat
  run : StreamRun α
deriving DecidableEq

/-- The retry loop of reconnectWithBackoff. `outcome n` is the transport
behaviour of attempt `n`; fuel counts the remaining loop iterations
(`maxRetries - attempt`). An attempt whose awaited startStreaming call throws
is retried after the current backoff delay (doubled and capped for the next
round) unless it was the last; when the loop exhausts, onError is called with
the last thrown error if there was one. An attempt that resolves ends the
loop at once. -/
def reconnectAux {α : Type} (J : List Char → Option α)
    (outcome : Nat → List (List Char) × TransportEnd)
    (maxRetries maxDelay multiplier : Nat) :
    Nat → Nat → Nat → Nat → StreamRun α → Bool → ReconnectResult α
  | 0, attempt, _delayMs, total, acc, sawThrow =>
    ⟨attempt, total, if sawThrow then addRun acc ⟨[], 0, 1⟩ else acc⟩
  | fuel + 1, attempt, delayMs, total, acc, _sawThrow =>
    let frags := (outcome attempt).1
    let ending := (outcome attempt).2
    let acc2 := addRun acc (startStreamingRun J frags ending)
    if startStreamingThrows frags ending then
      if attempt < maxRetries - 1 then
        reconnectAux J outcome maxRetries maxDelay multiplier fuel (attempt + 1)
          (min (delayMs * multiplier) maxDelay) (total + delayMs) acc2 true
      else
        reconnectAux J outcome maxRetries maxDelay multiplier fuel (attempt + 1)
          delayMs total acc2 true
    else
      ⟨attempt + 1, total, acc2⟩

/-- reconnectWithBackoff with explicit backoff options. -/
def reconnectWithBackoff {α : Type} (J : List Char → Option α)
    (outcome : Nat → List (List Char) × TransportEnd)
    (maxRetries initialDelay maxDelay multiplier : Nat) : ReconnectResult α :=
  reconnectAux J outcome maxRetries maxDelay multiplier maxRetries 0 initialDelay 0
    ⟨[], 0, 0⟩ false

/- ================= Claim C6 ================= -/

/-- A transport that fails the first two attempts and would succeed on the
third. -/
def failTwiceOutcome : Nat → List (List Char) × TransportEnd :=
  fun n => if n < 2 then ([], TransportEnd.failed) else ([['h', 'i', '\n']], TransportEnd.clean)

/-- Counterexample to C6: with the transport failing twice before succeeding
and the default options (max-retries 3, base delay 1000, multiplier 2), the
session does NOT complete silently after backoff: the first failed attempt
already invokes the error callback, no retry happens, the session never
completes, and the elapsed backoff delay is 0, not at least 1000 * 2 ^ 2. -/
theorem reconnect_backoff_counterexample :
    (reconnectWithBackoff (fun l => some l) failTwiceOutcome 3 1000 10000 2).run.errors = 1 ∧
    (reconnectWithBackoff (fun l => some l) failTwiceOutcome 3 1000 10000 2).run.completions = 0 ∧
    (reconnectWithBackoff (fun l => some l) failTwiceOutcome 3 1000 10000 2).attemptsMade = 1 ∧
    (reconnectWithBackoff (fun l => some l) failTwiceOutcome 3 1000 10000 2).totalDelay = 0 ∧
    ¬ ((reconnectWithBackoff (fun l => some l) failTwiceOutcome 3 1000 10000 2).run.errors = 0 ∧
       1000 * 2 ^ 2 ≤ (reconnectWithBackoff (fun l => some l) failTwiceOutcome 3 1000 10000 2).totalDelay) := by
  decide

/-- C6 amended: because startStreaming resolves even when the transport
fails, the reconnect loop never reaches its catch: one attempt is made, no
backoff delay ever elapses, and the observable callbacks are exactly those of
the first attempt (so a failing first attempt surfaces one error callback). -/
theorem reconnect_single_attempt {α : Type} (J : List Char → Option α)
    (outcome : Nat → List (List Char) × TransportEnd)
    (mr d md mult : Nat) (h : 1 ≤ mr) :
    reconnectWithBackoff J outcome mr d md mult =
      ⟨1, 0, startStreamingRun J (outcome 0).1 (outcome 0).2⟩ := by
  obtain ⟨k, rfl⟩ := Nat.exists_eq_add_of_le h
  simp [reconnectWithBackoff, reconnectAux, startStreamingThrows, addRun, Nat.add_comm]

/-- Witness for the amended C6 at max-retries 3 and the default options. -/
theorem reconnect_single_attempt_witness :
    1 ≤ 3 ∧
    reconnectWithBackoff (fun l => some l) failTwiceOutcome 3 1000 10000 2 =
      ⟨1, 0, startStreamingRun (fun l => some l) (failTwiceOutcome 0).1 (failTwiceOutcome 0).2⟩ :=
  ⟨by decide,
   reconnect_single_attempt (fun l => some l) failTwiceOutcome 3 1000 10000 2 (by decide)⟩

/- ================= useStreaming.startStream ================= -/

/-- The hook state that startStream consults: whether an abort controller
from an earlier startStream call is still held, the busy flag, the last
submitted message kept for retry, and the retry counter. -/
structure StreamingState where
  hasController : Bool
  isStreaming : Bool
  lastMessage : Option String
  retryCount : Nat
deriving DecidableEq

/-- The observable outcome of one startStream call. -/
structure OpenResult where
  failedImmediately : Bool
  priorAborted : Bool
  consumerRun : StreamRun MockChunk
  final : StreamingState
deriving DecidableEq

/-- startStream of the useStreaming hook. There is no already-open guard: an
existing controller is aborted, a fresh controller is installed, the config
is stored for retry, and mockStreaming is started with the new callbacks on
the fresh (never again aborted here) signal; when the run completes,
handleComplete clears the busy flag and the retry counter. -/
def startStream (s : StreamingState) (message : String) : OpenResult :=
  { failedImmediately := false
    priorAborted := s.hasController
    consumerRun := mockStreamingRun message none
    final := { hasController := true, isStreaming := false,
               lastMessage := some message, retryCount := 0 } }

/- ================= Claim C5 ================= -/

/-- A state in which a streaming session is already open. -/
def openSessionState : StreamingState :=
  { hasController := true, isStreaming := true, lastMessage := some "first", retryCount := 0 }

/-- Counterexample to C5: with a session already open, a second startStream
call neither fails immediately nor leaves the new consumer without
callbacks: the call proceeds and the new consumer receives chunks. -/
theorem second_open_counterexample :
    ¬ ((startStream openSessionState "second").failedImmediately = true ∨
       (startStream openSessionState "second").consumerRun.chunks = []) := by
  intro h
  rcases h with h | h
  · simp [startStream] at h
  · simp [startStream, mockStreamingRun, mockStreamingChunks] at h

/-- C5 amended: a second startStream call on a busy engine does not fail; it
aborts the prior session's controller and opens a fresh session whose
consumer callbacks are invoked — at most one session stays unaborted because
the prior one is cancelled, not because the new call is rejected. -/
theorem startStream_always_opens (s : StreamingState) (m : String) :
    (startStream s m).failedImmediately = false ∧
    (startStream s m).priorAborted = s.hasController ∧
    (startStream s m).consumerRun.chunks ≠ [] ∧
    (startStream s m).consumerRun.errors = 0 := by
  refine ⟨rfl, rfl, ?_, rfl⟩
  simp [startStream, mockStreamingRun, mockStreamingChunks]

/- ================= Upload manager: data model ================= -/

/-- The part of a browser File object the upload manager reads: name,
declared byte size and declared MIME type. -/
structure JsFile where
  name : String
  size : Nat
  mime : String
deriving DecidableEq

/-- ALLOWED_FILE_TYPES from utils/constants. -/
def ALLOWED_FILE_TYPES : List String :=
  ["image/jpeg", "image/jpg", "image/png", "image/webp"]

/-- MAX_FILE_SIZE from utils/constants: 5 MiB. -/
def MAX_FILE_SIZE : Nat := 5 * 1024 * 1024

/-- MAX_FILES_ALLOWED from utils/constants. -/
def MAX_FILES_ALLOWED : Nat := 5

/-- The messages passed to onUploadError, one constructor per distinct
source message: ERROR_MESSAGES.MAX_FILES_EXCEEDED, the per-file
ERROR_MESSAGES.INVALID_FILE_TYPE line, the per-file too-large message of
validateFile, the per-file invalid-type message of validateFile, and the
generic Validation failed fallback. -/
inductive UploadErrorMsg : Type
  | maxFilesExceeded : UploadErrorMsg
  | invalidFileType : String → UploadErrorMsg
  | tooLarge : String → UploadErrorMsg
  | typeNotAllowed : String → UploadErrorMsg
  | validationFailed : UploadErrorMsg
deriving DecidableEq

/-- The result record of validateFile. -/
structure ValidationResult where
  valid : Bool
  error : Option UploadErrorMsg
deriving DecidableEq

/-- validateFile from utils/helpers: size checked against MAX_FILE_SIZE
first, then the MIME type against ALLOWED_FILE_TYPES. -/
def validateFile (f : JsFile) : ValidationResult :=
  if MAX_FILE_SIZE < f.size then ⟨false, some (UploadErrorMsg.tooLarge f.name)⟩
  else if (ALLOWED_FILE_TYPES.contains f.mime) = false then
    ⟨false, some (UploadErrorMsg.typeNotAllowed f.name)⟩
  else ⟨true, none⟩

/-- One IExtendedFile entry of the upload batch. `abortRequested` is the
aborted flag of the entry's own AbortController signal. -/
structure ExtendedFile where
  file : JsFile
  filename : String
  uploadId : String
  isUploading : Bool
  uploadProgress : Nat
  cdnUrl : Option String
  uploadError : Option String
  abortRequested : Bool
deriving DecidableEq

/- ================= Upload manager: operations ================= -/

/-- updateFile of the useFileUpload hook: map over the batch and merge the
updates into every entry whose uploadId matches; entries with other ids are
returned unchanged. The partial-record merge of the source is modelled as an
update function. -/
def updateFile (state : List ExtendedFile) (uploadId : String)
    (updates : ExtendedFile → ExtendedFile) : List ExtendedFile :=
  state.map (fun f => if f.uploadId == uploadId then updates f else f)

/-- The validation fold inside uploadFiles: a file whose type is not in the
hook's allow-list is reported and dropped, a file failing validateFile is
reported with the validation error (or the fallback) and dropped, and any
other file is kept in input order. -/
def validationStep (allowedTypes : List String)
    (acc : List JsFile × List UploadErrorMsg) (f : JsFile) :
    List JsFile × List UploadErrorMsg :=
  if (allowedTypes.contains f.mime) = false then
    (acc.1, acc.2 ++ [UploadErrorMsg.invalidFileType f.name])
  else if (validateFile f).valid = false then
    (acc.1, acc.2 ++ [(validateFile f).error.getD UploadErrorMsg.validationFailed])
  else (acc.1 ++ [f], acc.2)

/-- A file that passes both checks of the validation loop. -/
def isAcceptedFile (allowedTypes : List String) (f : JsFile) : Bool :=
  allowedTypes.contains f.mime && (validateFile f).valid

/-- A fresh batch entry for an accepted file: uploading from the start with
progress 0, a fresh (unaborted) controller and a sanitized storage name. -/
def mkEntry (mkFilename : String → String) (uid : String) (f : JsFile) : ExtendedFile :=
  { file := f, filename := mkFilename f.name, uploadId := uid,
    isUploading := true, uploadProgress := 0, cdnUrl := none,
    uploadError := none, abortRequested := false }

/-- Fresh entries for a list of accepted files; `idGen` stands for the
impure generateUploadId counter, `mkFilename` for generateSafeFilename. -/
def mkEntries (idGen : Nat → String) (mkFilename : String → String)
    (fs : List JsFile) : List ExtendedFile :=
  fs.enum.map (fun p => mkEntry mkFilename (idGen p.1) p.2)

/-- uploadFiles of the useFileUpload hook, its synchronous state transition:
if the batch is already at capacity, one capacity error is reported and
nothing changes; otherwise the candidates are validated (invalid ones
reported), the valid ones are cut down to the free slots, and the entries for
that prefix are appended to the batch. The result is the new batch and the
list of messages passed to onUploadError. -/
def uploadFiles (maxFiles : Nat) (allowedTypes : List String)
    (idGen : Nat → String) (mkFilename : String → String)
    (state : List ExtendedFile) (files : List JsFile) :
    List ExtendedFile × List UploadErrorMsg :=
  if maxFiles ≤ state.length then
    (state, [UploadErrorMsg.maxFilesExceeded])
  else
    let vres := files.foldl (validationStep allowedTypes) ([], [])
    let availableSlots := maxFiles - state.length
    let filesToUpload := vres.1.take availableSlots
    (state ++ mkEntries idGen mkFilename filesToUpload, vres.2)

/-- deleteFile of the useFileUpload hook: abort the entry's controller if it
is uploading, then remove the entry at the given index. -/
def deleteFile (state : List ExtendedFile) (index : Nat) : List ExtendedFile :=
  (state.enum.filter (fun p => p.1 ≠ index)).map (fun p => p.2)

/-- retryUpload of the useFileUpload hook: look the entry up by id; when it
is absent, log and return with nothing changed and no task started; when it
is present — its status is not consulted — replace it by a copy reset to
uploading with cleared error, progress 0 and a fresh controller, and re-run
the upload task (the returned flag). -/
def retryUpload (state : List ExtendedFile) (uploadId : String) :
    List ExtendedFile × Bool :=
  match state.find? (fun f => f.uploadId == uploadId) with
  | none => (state, false)
  | some fileToRetry =>
    let updatedFile : ExtendedFile :=
      { fileToRetry with
        isUploading := true
        uploadError := none
        uploadProgress := 0
        abortRequested := false }
    (updateFile state uploadId (fun _ => updatedFile), true)

/-- cancelUpload of the useFileUpload hook: an entry that matches the id and
is uploading has its controller aborted and is mapped to null, i.e. removed
from the batch; every other entry is kept. -/
def cancelUpload (state : List ExtendedFile) (uploadId : String) : List ExtendedFile :=
  state.filterMap
    (fun f => if f.uploadId == uploadId && f.isUploading then none else some f)

/- ================= Claim C2 ================= -/

theorem validationStep_not_allowed {allowedTypes : List String} {f : JsFile}
    (h : allowedTypes.contains f.mime = false) (acc : List JsFile × List UploadErrorMsg) :
    validationStep allowedTypes acc f =
      (acc.1, acc.2 ++ [UploadErrorMsg.invalidFileType f.name]) := by
  unfold validationStep
  rw [h]
  simp

theorem validationStep_invalid {allowedTypes : List String} {f : JsFile}
    (h1 : allowedTypes.contains f.mime = true) (h2 : (validateFile f).valid = false)
    (acc : List JsFile × List UploadErrorMsg) :
    validationStep allowedTypes acc f =
      (acc.1, acc.2 ++ [(validateFile f).error.getD UploadErrorMsg.validationFailed]) := by
  unfold validationStep
  rw [h1, h2]
  simp

theorem validationStep_ok {allowedTypes : List String} {f : JsFile}
    (h1 : allowedTypes.contains f.mime = true) (h2 : (validateFile f).valid = true)
    (acc : List JsFile × List UploadErrorMsg) :
    validationStep allowedTypes acc f = (acc.1 ++ [f], acc.2) := by
  unfold validationStep
  rw [h1, h2]
  simp

theorem validation_fold_accepted (allowedTypes : List String) :
    ∀ (files : List JsFile) (acc : List JsFile × List UploadErrorMsg),
      (files.foldl (validationStep allowedTypes) acc).1 =
        acc.1 ++ files.filter (isAcceptedFile allowedTypes) := by
  intro files
  induction files with
  | nil => intro acc; simp
  | cons f fs ih =>
    intro acc
    rw [List.foldl_cons]
    cases h1 : allowedTypes.contains f.mime with
    | false =>
      have ha : isAcceptedFile allowedTypes f = false := by rw [isAcceptedFile, h1]; rfl
      rw [validationStep_not_allowed h1, ih, List.filter_cons, ha]
      simp
    | true =>
      cases h2 : (validateFile f).valid with
      | false =>
        have ha : isAcceptedFile allowedTypes f = false := by rw [isAcceptedFile, h1, h2]; rfl
        rw [validationStep_invalid h1 h2, ih, List.filter_cons, ha]
        simp
      | true =>
        have ha : isAcceptedFile allowedTypes f = true := by rw [isAcceptedFile, h1, h2]; rfl
        rw [validationStep_ok h1 h2, ih, List.filter_cons, ha]
        simp [List.append_assoc]

theorem validateFile_error_not_capacity (f : JsFile) :
    (validateFile f).error.getD UploadErrorMsg.validationFailed ≠
      UploadErrorMsg.maxFilesExceeded := by
  rw [validateFile]
  split
  · simp
  · split <;> simp

theorem validation_fold_no_capacity_error (allowedTypes : List String) :
    ∀ (files : List JsFile) (acc : List JsFile × List UploadErrorMsg),
      UploadErrorMsg.maxFilesExceeded ∉ acc.2 →
      UploadErrorMsg.maxFilesExceeded ∉ (files.foldl (validationStep allowedTypes) acc).2 := by
  intro files
  induction files with
  | nil => intro acc h; exact h
  | cons f fs ih =>
    intro acc h
    rw [List.foldl_cons]
    refine ih _ ?_
    cases h1 : allowedTypes.contains f.mime with
    | false =>
      rw [validationStep_not_allowed h1]
      intro hm
      rcases List.mem_append.mp hm with hm1 | hm2
      · exact h hm1
      · simp at hm2
    | true =>
      cases h2 : (validateFile f).valid with
      | false =>
        rw [validationStep_invalid h1 h2]
        intro hm
        rcases List.mem_append.mp hm with hm1 | hm2
        · exact h hm1
        · simp at hm2
          exact validateFile_error_not_capacity f hm2.symm
      | true =>
        rw [validationStep_ok h1 h2]
        exact h

theorem mkEntries_length (idGen : Nat → String) (mkFilename : String → String)
    (fs : List JsFile) : (mkEntries idGen mkFilename fs).length = fs.length := by
  simp [mkEntries]

/-- A well-formed PNG candidate of 100 bytes. -/
def pngFile (n : String) : JsFile := ⟨n, 100, "image/png"⟩

/-- Six valid candidates offered to an empty batch of capacity five. -/
def sixFiles : List JsFile :=
  [pngFile "a", pngFile "b", pngFile "c", pngFile "d", pngFile "e", pngFile "f"]

/-- A concrete id generator standing for generateUploadId. -/
def idGen0 : Nat → String := fun n => "upload_" ++ toString n

/-- Counterexample to C2: six valid files enqueued into an empty batch with
capacity five fill the batch to five, but the sixth file is dropped silently
— no capacity (or any other) error is reported, against the claim that the
overflow is reported as a capacity error. -/
theorem uploadFiles_overflow_counterexample :
    ((uploadFiles 5 ALLOWED_FILE_TYPES idGen0 id [] sixFiles).1).length = 5 ∧
    (uploadFiles 5 ALLOWED_FILE_TYPES idGen0 id [] sixFiles).2 = [] ∧
    UploadErrorMsg.maxFilesExceeded ∉ (uploadFiles 5 ALLOWED_FILE_TYPES idGen0 id [] sixFiles).2 := by
  refine ⟨by decide, by decide, ?_⟩
  intro h
  simp [uploadFiles, sixFiles, validationStep, validateFile, pngFile,
    ALLOWED_FILE_TYPES, MAX_FILE_SIZE] at h

/-- C2 amended: the batch length never exceeds the configured maximum, and
when slots remain, exactly the first M valid candidates (M = free slots) are
appended, in order; the overflow valid candidates beyond M are dropped
silently — no capacity error is reported for them. A capacity error is
reported only when the batch is already full at call time, and then nothing
is appended. -/
theorem uploadFiles_capacity (maxFiles : Nat) (allowedTypes : List String)
    (idGen : Nat → String) (mkFilename : String → String)
    (st : List ExtendedFile) (files : List JsFile)
    (hlen : st.length ≤ maxFiles) :
    ((uploadFiles maxFiles allowedTypes idGen mkFilename st files).1).length ≤ maxFiles ∧
    (st.length < maxFiles →
      (uploadFiles maxFiles allowedTypes idGen mkFilename st files).1 =
        st ++ mkEntries idGen mkFilename
          ((files.filter (isAcceptedFile allowedTypes)).take (maxFiles - st.length)) ∧
      UploadErrorMsg.maxFilesExceeded ∉
        (uploadFiles maxFiles allowedTypes idGen mkFilename st files).2) ∧
    (maxFiles ≤ st.length →
      uploadFiles maxFiles allowedTypes idGen mkFilename st files =
        (st, [UploadErrorMsg.maxFilesExceeded])) := by
  by_cases hfull : maxFiles ≤ st.length
  · refine ⟨?_, ?_, ?_⟩
    · simp [uploadFiles, hfull]
      omega
    · intro hlt; omega
    · intro _; simp [uploadFiles, hfull]
  · have hlt : st.length < maxFiles := Nat.lt_of_not_le hfull
    have hstate : (uploadFiles maxFiles allowedTypes idGen mkFilename st files).1 =
        st ++ mkEntries idGen mkFilename
          ((files.filter (isAcceptedFile allowedTypes)).take (maxFiles - st.length)) := by
      simp [uploadFiles, hfull, validation_fold_accepted allowedTypes files ([], [])]
    refine ⟨?_, fun _ => ⟨hstate, ?_⟩, fun hge => absurd hge hfull⟩
    · rw [hstate]
      rw [List.length_append, mkEntries_length]
      have htake : ((files.filter (isAcceptedFile allowedTypes)).take
          (maxFiles - st.length)).length ≤ maxFiles - st.length := by
        simp
      omega
    · have : UploadErrorMsg.maxFilesExceeded ∉
          (files.foldl (validationStep allowedTypes) ([], [])).2 :=
        validation_fold_no_capacity_error allowedTypes files ([], []) (by simp)
      simpa [uploadFiles, hfull] using this

/-- Witness for the amended C2: six valid candidates, capacity five, empty
batch. -/
theorem uploadFiles_capacity_witness :
    (([] : List ExtendedFile).length ≤ 5 ∧ ([] : List ExtendedFile).length < 5) ∧
    (((uploadFiles 5 ALLOWED_FILE_TYPES idGen0 id [] sixFiles).1).length ≤ 5 ∧
     (uploadFiles 5 ALLOWED_FILE_TYPES idGen0 id [] sixFiles).1 =
       [] ++ mkEntries idGen0 id
         ((sixFiles.filter (isAcceptedFile ALLOWED_FILE_TYPES)).take (5 - ([] : List ExtendedFile).length)) ∧
     UploadErrorMsg.maxFilesExceeded ∉ (uploadFiles 5 ALLOWED_FILE_TYPES idGen0 id [] sixFiles).2) :=
  ⟨⟨by decide, by decide⟩,
   ⟨(uploadFiles_capacity 5 ALLOWED_FILE_TYPES idGen0 id [] sixFiles (by decide)).1,
    ((uploadFiles_capacity 5 ALLOWED_FILE_TYPES idGen0 id [] sixFiles (by decide)).2.1 (by decide)).1,
    ((uploadFiles_capacity 5 ALLOWED_FILE_TYPES idGen0 id [] sixFiles (by decide)).2.1 (by decide)).2⟩⟩

/- ================= Claim C3 ================= -/

/-- An entry that finished its upload successfully. -/
def succEntry : ExtendedFile :=
  { file := pngFile "a", filename := "a", uploadId := "id1", isUploading := false,
    uploadProgress := 100, cdnUrl := some "urlA", uploadError := none,
    abortRequested := false }

/-- Counterexample to C3: retrying an entry that is in succeeded — not
failed — status is not a no-op: the upload task is re-run and the entry is
mutated back to an uploading state. -/
theorem retryUpload_not_noop_counterexample :
    (retryUpload [succEntry] "id1").2 = true ∧
    retryUpload [succEntry] "id1" ≠ ([succEntry], false) ∧
    (retryUpload [succEntry] "id1").1 ≠ [succEntry] := by decide

/-- C3 amended: retryUpload never changes the batch length; it is a no-op
exactly when no entry carries the identifier; when an entry carries it — its
status is not consulted — the task is re-run and every matching entry is
reset to uploading with progress 0 and no error, whatever state it was in. -/
theorem retryUpload_amended (st : List ExtendedFile) (uid : String) :
    ((retryUpload st uid).1).length = st.length ∧
    (st.find? (fun f => f.uploadId == uid) = none → retryUpload st uid = (st, false)) ∧
    (∀ f ∈ st, f.uploadId = uid →
      (retryUpload st uid).2 = true ∧
      ∀ g ∈ (retryUpload st uid).1, g.uploadId = uid →
        g.isUploading = true ∧ g.uploadProgress = 0 ∧ g.uploadError = none) := by
  refine ⟨?_, ?_, ?_⟩
  · cases h : st.find? (fun f => f.uploadId == uid) with
    | none => simp [retryUpload, h]
    | some fr => simp [retryUpload, h, updateFile]
  · intro h
    simp [retryUpload, h]
  · intro f hf hfid
    have hsome : (st.find? (fun f => f.uploadId == uid)).isSome := by
      rw [List.find?_isSome]
      exact ⟨f, hf, by simp [hfid]⟩
    obtain ⟨fr, hfr⟩ := Option.isSome_iff_exists.mp hsome
    refine ⟨by simp [retryUpload, hfr], ?_⟩
    intro g hg hgid
    simp only [retryUpload, hfr] at hg
    simp only [updateFile, List.mem_map] at hg
    obtain ⟨f', hf', heq⟩ := hg
    by_cases hc : (f'.uploadId == uid) = true
    · rw [if_pos hc] at heq
      rw [← heq]
      exact ⟨rfl, rfl, rfl⟩
    · rw [if_neg hc] at heq
      rw [← heq] at hgid
      exact absurd (by simp [hgid]) hc

/-- Witness for the amended C3: a succeeded entry is found and restarted. -/
theorem retryUpload_amended_witness :
    (succEntry ∈ [succEntry] ∧ succEntry.uploadId = "id1") ∧
    (retryUpload [succEntry] "id1").2 = true :=
  ⟨⟨by decide, by decide⟩,
   ((retryUpload_amended [succEntry] "id1").2.2 succEntry (by decide) (by decide)).1⟩

/- ================= Claim C4 ================= -/

/-- An entry with an upload in flight. -/
def uploadingEntry : ExtendedFile :=
  { file := pngFile "b", filename := "b", uploadId := "id2", isUploading := true,
    uploadProgress := 50, cdnUrl := none, uploadError := none, abortRequested := false }

/-- Counterexample to C4: cancelling the one uploading entry leaves no
visible record — the batch shrinks from one entry to none, against the claim
that the batch length is unchanged and a cancelled record stays visible. -/
theorem cancelUpload_removes_counterexample :
    cancelUpload [uploadingEntry] "id2" = [] ∧
    ¬ ((cancelUpload [uploadingEntry] "id2").length =
        ([uploadingEntry] : List ExtendedFile).length) := by decide

theorem cancelUpload_cons (f : ExtendedFile) (st : List ExtendedFile) (uid : String) :
    cancelUpload (f :: st) uid =
      if f.uploadId == uid && f.isUploading then cancelUpload st uid
      else f :: cancelUpload st uid := by
  rw [cancelUpload, List.filterMap_cons]
  cases hc : (f.uploadId == uid && f.isUploading) <;> simp [hc, cancelUpload]

/-- C4 amended: cancelUpload on an uploading entry aborts its controller and
REMOVES the entry from the batch: the length drops by the number of matching
uploading entries, no cancelled record remains (there is no distinct
cancelled state in the batch), and every entry that does not match the id
while uploading is kept unchanged. -/
theorem cancelUpload_amended (st : List ExtendedFile) (uid : String) :
    (cancelUpload st uid).length +
        (st.filter (fun f => f.uploadId == uid && f.isUploading)).length = st.length ∧
    (∀ g ∈ st, ¬(g.uploadId = uid ∧ g.isUploading = true) → g ∈ cancelUpload st uid) ∧
    (∀ g ∈ cancelUpload st uid, ¬(g.uploadId = uid ∧ g.isUploading = true)) := by
  refine ⟨?_, ?_, ?_⟩
  · induction st with
    | nil => simp [cancelUpload]
    | cons f st ih =>
      rw [cancelUpload_cons, List.filter_cons]
      by_cases hc : (f.uploadId == uid && f.isUploading) = true
      · rw [if_pos hc, if_pos hc, List.length_cons, List.length_cons]
        omega
      · rw [if_neg hc, if_neg hc, List.length_cons, List.length_cons]
        omega
  · intro g hg hng
    have hc : (g.uploadId == uid && g.isUploading) = false := by
      cases hu : g.isUploading
      · simp
      · have h1 : g.uploadId ≠ uid := fun he => hng ⟨he, hu⟩
        simp [hu, h1]
    rw [cancelUpload, List.mem_filterMap]
    exact ⟨g, hg, by rw [hc]; rfl⟩
  · intro g hg
    rw [cancelUpload, List.mem_filterMap] at hg
    obtain ⟨a, _, ha⟩ := hg
    by_cases hc : (a.uploadId == uid && a.isUploading) = true
    · rw [if_pos hc] at ha
      exact absurd ha (by simp)
    · rw [if_neg hc] at ha
      have hag : a = g := by injection ha
      subst hag
      intro hcon
      exact hc (by simp [hcon.1, hcon.2])

/-- Witness for the amended C4: a batch holding one uploading and one
succeeded entry; cancelling the uploading one keeps the succeeded one. -/
theorem cancelUpload_amended_witness :
    (succEntry ∈ [uploadingEntry, succEntry] ∧
      ¬(succEntry.uploadId = "id2" ∧ succEntry.isUploading = true)) ∧
    succEntry ∈ cancelUpload [uploadingEntry, succEntry] "id2" :=
  ⟨⟨by decide, by decide⟩,
   (cancelUpload_amended [uploadingEntry, succEntry] "id2").2.1 succEntry
     (by decide) (by decide)⟩

/- ================= Claim C9 ================= -/

/-- The progress percentages the mock transport reports: its loop runs from
0 to 100 in steps of 10 with no reference to any cancellation signal. -/
def mockUploadProgressValues : List Nat :=
  [0, 10, 20, 30, 40, 50, 60, 70, 80, 90, 100]

/-- The progress-callback invocations processFileUpload makes for one entry.
The source consults the entry token once, before the transfer starts;
the mock transport uploadFile receives no signal at all, so a token
triggered after `_abortStep` callbacks have been delivered does not stop the
remaining ones. -/
def processFileUploadProgressCalls (abortedBeforeStart : Bool)
    (_abortStep : Option Nat) : List Nat :=
  if abortedBeforeStart then [] else mockUploadProgressValues

/-- Counterexample to C9: trigger the upload token right after the first
progress callback; ten further callbacks still fire, not at most one. -/
theorem upload_cancel_callbacks_counterexample :
    ((processFileUploadProgressCalls false (some 1)).drop 1).length = 10 ∧
    ¬ (((processFileUploadProgressCalls false (some 1)).drop 1).length ≤ 1) := by decide

/-- C9 amended: aborting a streaming session stops chunk delivery at the
next suspension point, and an upload token that is already aborted before
the task starts suppresses every callback; but once the mock transfer is in
flight, all eleven progress callbacks fire regardless of when the token is
triggered. -/
theorem cancellation_callback_amended (m : String) (j : Nat) (k : Option Nat) :
    processFileUploadProgressCalls true k = [] ∧
    processFileUploadProgressCalls false k = mockUploadProgressValues ∧
    mockUploadProgressValues.length = 11 ∧
    (mockStreamingRun m (some j)).chunks = (mockStreamingChunks m).take j :=
  ⟨rfl, rfl, rfl, rfl⟩

/- ================= Claim C10 ================= -/

/-- C10: a per-entry state update keyed on an identifier that no batch entry
carries — for instance after the entry was removed by cancelUpload or
deleteFile — leaves the batch unchanged: no entry is modified and the length
is preserved, so removed entries cannot be resurrected by late callbacks. -/
theorem updateFile_absent_id (st : List ExtendedFile) (uid : String)
    (updates : ExtendedFile → ExtendedFile) (h : ∀ f ∈ st, f.uploadId ≠ uid) :
    updateFile st uid updates = st := by
  induction st with
  | nil => rfl
  | cons f st ih =>
    have hf : f.uploadId ≠ uid := h f (List.mem_cons_self f st)
    have hbeq : ¬((f.uploadId == uid) = true) := by simp [hf]
    have hrest := ih (fun g hg => h g (List.mem_cons_of_mem f hg))
    rw [updateFile] at hrest ⊢
    rw [List.map_cons, if_neg hbeq, hrest]

/-- Witness for C10: a progress update for an identifier absent from the
batch. -/
theorem updateFile_absent_id_witness :
    (∀ f ∈ [succEntry], f.uploadId ≠ "ghost") ∧
    updateFile [succEntry] "ghost" (fun f => { f with uploadProgress := 99 }) = [succEntry] :=
  ⟨by decide,
   updateFile_absent_id [succEntry] "ghost" (fun f => { f with uploadProgress := 99 })
     (by decide)⟩
